import Mathlib

/-!
# Verification of the scheduling-api core

Shallow embedding, in Lean 4, of the appointment conflict-detection,
status-transition, validation and recurrence-expansion logic of the
`scheduling-api` Go repository, together with theorems settling the
frozen claims about its specification.

Modelling conventions:

* Go `time.Time` values are modelled at one-minute resolution as an
  integer count of minutes since 1970-01-01T00:00 UTC (`GoTime`).
  All times manipulated by the embedded code are minute-aligned, and
  all zone handling in the repository is fixed-offset, so calendar
  arithmetic (`AddDate`, `Year`/`Month`/`Day`, `Weekday`) is exact.
* Go `string`-typed enumerations (`AppointmentStatus`,
  `RecurrencePattern`, `User.Role`) stay strings, as in the source.
* Go `uint` identifiers become `Nat`; Go `int` fields become `Int`.
* The database of stored appointments behind the GORM queries is an
  explicit `List Appointment`; a SQL `COUNT(...) > 0` over a filter
  becomes `List.countP ... > 0`.
* `time.Now()` is passed explicitly as a `now : Int` argument to
  the operations that read the clock.
-/

set_option maxRecDepth 16000

/-- Civil-calendar conversion: `(y, m, d)` to days since 1970-01-01
(proleptic Gregorian).  Mirrors the arithmetic Go's `time` package
performs when `time.Date` is called with a month in `1..12` and a
day-of-month `≥ 1` (larger days normalise into following months, as in Go). -/
def daysFromCivil (y m d : Int) : Int :=
  let y1 : Int := if m ≤ 2 then y - 1 else y
  let era : Int := y1 / 400
  let yoe : Nat := (y1 - era * 400).toNat
  let mp : Nat := (if 2 < m then m - 3 else m + 9).toNat
  let doy : Nat := (153 * mp + 2) / 5 + d.toNat - 1
  let doe : Nat := yoe * 365 + yoe / 4 - yoe / 100 + doy
  era * 146097 + (doe : Int) - 719468

/-- Civil-calendar conversion: days since 1970-01-01 to `(year, month, day)`,
month in `1..12`, day in `1..31`. Inverse of `daysFromCivil` on valid dates. -/
def civilFromDays (z0 : Int) : Int × Int × Int :=
  let z : Int := z0 + 719468
  let era : Int := z / 146097
  let doe : Nat := (z - era * 146097).toNat
  let yoe : Nat := (doe - doe / 1460 + doe / 36524 - doe / 146096) / 365
  let y : Int := (yoe : Int) + era * 400
  let doy : Nat := doe - (365 * yoe + yoe / 4 - yoe / 100)
  let mp : Nat := (5 * doy + 2) / 153
  let d : Nat := doy - (153 * mp + 2) / 5 + 1
  let m : Nat := if mp < 10 then mp + 3 else mp - 9
  (if m ≤ 2 then y + 1 else y, (m : Int), (d : Int))

/-- `t.Year()` for the minute-resolution model. -/
def goYear (t : Int) : Int := (civilFromDays (t / 1440)).1

/-- `t.Month()` (1 = January .. 12 = December). -/
def goMonth (t : Int) : Int := (civilFromDays (t / 1440)).2.1

/-- `t.Day()` (day of month, 1-based). -/
def goDayOfMonth (t : Int) : Int := (civilFromDays (t / 1440)).2.2

/-- `t.Weekday()` (0 = Sunday .. 6 = Saturday); 1970-01-01 was a Thursday. -/
def goWeekday (t : Int) : Int := (t / 1440 + 4) % 7

/-- `time.Date(y, m, d, hh, mm, 0, 0, utc)` in the minute model.
Out-of-range hour/minute values normalise by plain addition, as in Go. -/
def goDateHM (y m d hh mm : Int) : Int :=
  daysFromCivil y m d * 1440 + hh * 60 + mm

/-- `t.AddDate(n, 0, 0)`: same clock time and calendar month/day, year
shifted by `n` (Feb 29 normalising forward, as in Go). -/
def goAddYears (t : Int) (n : Int) : Int :=
  let c := civilFromDays (t / 1440)
  daysFromCivil (c.1 + n) c.2.1 c.2.2 * 1440 + t % 1440

/-- The zero `time.Time` (January 1, year 1, 00:00 UTC), target of `IsZero`. -/
def goTimeZero : Int := goDateHM 1 1 1 0 0

/-! ## Data model (`internal/models/models.go`) -/

/-- `models.AppointmentStatus` is a string type in the source. -/
abbrev AppointmentStatus := String

def StatusPending : AppointmentStatus := "pending"
def StatusConfirmed : AppointmentStatus := "confirmed"
def StatusCancelled : AppointmentStatus := "cancelled"
def StatusCompleted : AppointmentStatus := "completed"
def StatusRescheduled : AppointmentStatus := "rescheduled"

/-- `models.Appointment` (scheduling-relevant fields). -/
structure Appointment where
  id : Nat
  supplierID : Nat
  employeeID : Nat
  operationID : Nat
  productID : Nat
  scheduledStart : Int
  scheduledEnd : Int
  status : AppointmentStatus
  notes : String
  quantityToDeliver : Int
  confirmedAt : Option Int
  cancelledAt : Option Int
  completedAt : Option Int
  cancellationReason : String
  deriving Repr, DecidableEq

/-- `models.User` (fields read by the handlers). -/
structure User where
  id : Nat
  role : String
  deriving Repr, DecidableEq

/-- `Appointment.Validate` from `internal/models/models.go`: the checks run
in source order and the first failing check's message is returned. -/
def Appointment.Validate (a : Appointment) : Except String Unit :=
  if a.supplierID = 0 then .error "supplier is required"
  else if a.employeeID = 0 then .error "employee is required"
  else if a.operationID = 0 then .error "operation is required"
  else if a.productID = 0 then .error "product is required"
  else if a.scheduledStart = goTimeZero then .error "scheduled start time is required"
  else if a.scheduledEnd = goTimeZero then .error "scheduled end time is required"
  else if a.scheduledEnd < a.scheduledStart then
    .error "scheduled start time must be before scheduled end time"
  else if a.quantityToDeliver ≤ 0 then
    .error "quantity to deliver must be greater than zero"
  else if a.scheduledEnd - a.scheduledStart < 60 then
    .error "appointment must be at least 1 hour long"
  else .ok ()

/-! ## Conflict detector (`appointmentRepository.HasConflict`) -/

/-- The three OR'd range conditions of the SQL `WHERE` clause in
`HasConflict`, with `s1`/`e1` the candidate's interval (the bound query
parameters) and `s2`/`e2` a stored row's `scheduled_start`/`scheduled_end`:
`(scheduled_start < e1 AND scheduled_end > s1) OR
 (scheduled_start >= s1 AND scheduled_start < e1) OR
 (scheduled_end > s1 AND scheduled_end <= e1)`. -/
def overlapCond3 (s1 e1 s2 e2 : Int) : Bool :=
  (decide (s2 < e1) && decide (s1 < e2)) ||
  (decide (s1 ≤ s2) && decide (s2 < e1)) ||
  (decide (s1 < e2) && decide (e2 ≤ e1))

/-- Row filter of the employee-conflict query: same employee, different id,
status not cancelled, range condition. -/
def employeeConflictRow (a r : Appointment) : Bool :=
  decide (r.employeeID = a.employeeID) && decide (r.id ≠ a.id) &&
  decide (r.status ≠ StatusCancelled) &&
  overlapCond3 a.scheduledStart a.scheduledEnd r.scheduledStart r.scheduledEnd

/-- Row filter of the supplier-conflict query. -/
def supplierConflictRow (a r : Appointment) : Bool :=
  decide (r.supplierID = a.supplierID) && decide (r.id ≠ a.id) &&
  decide (r.status ≠ StatusCancelled) &&
  overlapCond3 a.scheduledStart a.scheduledEnd r.scheduledStart r.scheduledEnd

/-- `appointmentRepository.HasConflict` over an explicit stored-appointment
list `db`: the employee count query, then (if it found nothing) the supplier
count query. -/
def HasConflict (db : List Appointment) (a : Appointment) : Bool :=
  if 0 < db.countP (employeeConflictRow a) then true
  else 0 < db.countP (supplierConflictRow a)

/-- The canonical half-open overlap test of the spec's §4.2:
`[s1,e1)` and `[s2,e2)` conflict iff `s1 < e2 AND s2 < e1`. -/
def halfOpenOverlap (s1 e1 s2 e2 : Int) : Bool :=
  decide (s1 < e2) && decide (s2 < e1)

/-- The spec's conflict criterion for one stored row against candidate `a`:
different id, not cancelled, same employee or same supplier, half-open overlap. -/
def specConflictRow (a r : Appointment) : Prop :=
  r.id ≠ a.id ∧ r.status ≠ StatusCancelled ∧
  (r.employeeID = a.employeeID ∨ r.supplierID = a.supplierID) ∧
  a.scheduledStart < r.scheduledEnd ∧ r.scheduledStart < a.scheduledEnd

instance (a r : Appointment) : Decidable (specConflictRow a r) := by
  unfold specConflictRow; infer_instance

/-! ## First theorems: the claims about the conflict detector -/

/-- Helper: the three-clause range condition agrees with the half-open test
whenever the stored interval is nondegenerate. -/
theorem overlapCond3_eq_halfOpen (s1 e1 s2 e2 : Int) (h2 : s2 < e2) :
    overlapCond3 s1 e1 s2 e2 = halfOpenOverlap s1 e1 s2 e2 := by
  unfold overlapCond3 halfOpenOverlap
  rw [Bool.eq_iff_iff]
  simp only [Bool.or_eq_true, Bool.and_eq_true, decide_eq_true_eq]
  omega

/-- C2: for all pairs of nondegenerate intervals, the three OR'd range
conditions used by `HasConflict` are logically equivalent to the single
half-open overlap inequality `s1 < e2 AND s2 < e1`. -/
theorem hasConflict_rangeCond_equiv_halfOpen
    (s1 e1 s2 e2 : Int) (h1 : s1 < e1) (h2 : s2 < e2) :
    overlapCond3 s1 e1 s2 e2 = halfOpenOverlap s1 e1 s2 e2 :=
  overlapCond3_eq_halfOpen s1 e1 s2 e2 h2

/-- C2 witness: the equivalence at a concrete pair of intervals. -/
theorem hasConflict_rangeCond_equiv_halfOpen_witness :
    overlapCond3 0 120 60 180 = halfOpenOverlap 0 120 60 180 :=
  hasConflict_rangeCond_equiv_halfOpen 0 120 60 180 (by decide) (by decide)

/-- Helper: one stored row passes the employee-or-supplier query filter iff
it meets the spec's conflict criterion, provided its own interval is
nondegenerate. -/
theorem conflictRow_spec (a r : Appointment)
    (hr : r.scheduledStart < r.scheduledEnd) :
    (employeeConflictRow a r = true ∨ supplierConflictRow a r = true) ↔
      specConflictRow a r := by
  unfold employeeConflictRow supplierConflictRow specConflictRow
  rw [overlapCond3_eq_halfOpen _ _ _ _ hr]
  unfold halfOpenOverlap
  simp only [Bool.and_eq_true, decide_eq_true_eq]
  tauto

/-- C1 (amended): provided every stored appointment's interval is
nondegenerate (`scheduledStart < scheduledEnd`), `HasConflict` returns true
iff some stored appointment with a different id, a non-cancelled status, the
same employee or the same supplier as the candidate, overlaps the
candidate's interval under the half-open test `s1 < e2 AND s2 < e1`. -/
theorem hasConflict_iff_spec (db : List Appointment) (a : Appointment)
    (hdb : ∀ r ∈ db, r.scheduledStart < r.scheduledEnd) :
    (HasConflict db a = true ↔ ∃ r ∈ db, specConflictRow a r) := by
  have hcount : HasConflict db a = true ↔
      (0 < db.countP (employeeConflictRow a) ∨
        0 < db.countP (supplierConflictRow a)) := by
    unfold HasConflict
    by_cases hEmp : 0 < db.countP (employeeConflictRow a) <;> simp [hEmp]
  rw [hcount, List.countP_pos_iff, List.countP_pos_iff]
  constructor
  · rintro (⟨r, hrdb, hr⟩ | ⟨r, hrdb, hr⟩)
    · exact ⟨r, hrdb, (conflictRow_spec a r (hdb r hrdb)).1 (Or.inl hr)⟩
    · exact ⟨r, hrdb, (conflictRow_spec a r (hdb r hrdb)).1 (Or.inr hr)⟩
  · rintro ⟨r, hrdb, hr⟩
    rcases (conflictRow_spec a r (hdb r hrdb)).2 hr with h | h
    · exact Or.inl ⟨r, hrdb, h⟩
    · exact Or.inr ⟨r, hrdb, h⟩

/-- Candidate appointment `[0, 600)` used in the C1 counterexample and witness. -/
def candidateAppt : Appointment :=
  { id := 1, supplierID := 9, employeeID := 7, operationID := 1, productID := 1,
    scheduledStart := 0, scheduledEnd := 600, status := StatusPending,
    notes := "", quantityToDeliver := 1, confirmedAt := none,
    cancelledAt := none, completedAt := none, cancellationReason := "" }

/-- A stored appointment with a degenerate interval `[0, 0)` for the same
employee as `candidateAppt`. -/
def degenerateStoredAppt : Appointment :=
  { id := 2, supplierID := 8, employeeID := 7, operationID := 1, productID := 1,
    scheduledStart := 0, scheduledEnd := 0, status := StatusPending,
    notes := "", quantityToDeliver := 1, confirmedAt := none,
    cancelledAt := none, completedAt := none, cancellationReason := "" }

/-- A stored appointment `[0, 120)` for the same employee as `candidateAppt`. -/
def overlappingStoredAppt : Appointment :=
  { id := 3, supplierID := 8, employeeID := 7, operationID := 1, productID := 1,
    scheduledStart := 0, scheduledEnd := 120, status := StatusPending,
    notes := "", quantityToDeliver := 1, confirmedAt := none,
    cancelledAt := none, completedAt := none, cancellationReason := "" }

/-- C1 counterexample: over a store holding one degenerate row `[0, 0)`,
`HasConflict` reports a conflict for candidate `[0, 600)` although no stored
appointment overlaps it under the half-open test, so the claimed
equivalence fails for arbitrary stored sets. -/
theorem hasConflict_iff_spec_counterexample :
    HasConflict [degenerateStoredAppt] candidateAppt = true ∧
      ¬ (∃ r ∈ [degenerateStoredAppt], specConflictRow candidateAppt r) := by
  decide

/-- C1 witness: the amended equivalence applied to a concrete nondegenerate
store. -/
theorem hasConflict_iff_spec_witness :
    (HasConflict [overlappingStoredAppt] candidateAppt = true ↔
      ∃ r ∈ [overlappingStoredAppt], specConflictRow candidateAppt r) :=
  hasConflict_iff_spec [overlappingStoredAppt] candidateAppt (by decide)

/-! ## Status Transition Authority
(`hasStatusChangePermission` in `internal/api/handlers/appointment_handler.go`) -/

/-- `hasStatusChangePermission`: admins may always transition; otherwise the
decision follows the Go `switch` on the appointment's current status, in
source order. -/
def hasStatusChangePermission (user : User) (appointment : Appointment)
    (newStatus : AppointmentStatus) : Bool :=
  if user.role = "admin" then true
  else if appointment.status = StatusPending then
    if newStatus = StatusConfirmed ∧ user.role = "employee" then true
    else if newStatus = StatusCancelled ∧ user.role = "supplier" then
      user.id = appointment.supplierID
    else false
  else if appointment.status = StatusConfirmed then
    if newStatus = StatusCompleted ∧ user.role = "employee" then
      user.id = appointment.employeeID
    else if (newStatus = StatusCancelled ∨ newStatus = StatusRescheduled) ∧
        user.role = "supplier" then
      user.id = appointment.supplierID
    else false
  else if appointment.status = StatusCancelled then false
  else if appointment.status = StatusCompleted then false
  else if appointment.status = StatusRescheduled then
    if newStatus = StatusPending ∧ user.role = "supplier" then
      user.id = appointment.supplierID
    else false
  else false

/-- The §4.3 permission matrix, directly from the spec's table: one disjunct
per row, each row being a (from, to, role) triple plus its extra ownership
condition ("actor is the appointment's supplier/employee"). -/
def specPermissionMatrix (user : User) (appointment : Appointment)
    (newStatus : AppointmentStatus) : Bool :=
  (decide (appointment.status = StatusPending) &&
    decide (newStatus = StatusConfirmed) && decide (user.role = "employee")) ||
  (decide (appointment.status = StatusPending) &&
    decide (newStatus = StatusCancelled) && decide (user.role = "supplier") &&
    decide (user.id = appointment.supplierID)) ||
  (decide (appointment.status = StatusConfirmed) &&
    decide (newStatus = StatusCompleted) && decide (user.role = "employee") &&
    decide (user.id = appointment.employeeID)) ||
  (decide (appointment.status = StatusConfirmed) &&
    (decide (newStatus = StatusCancelled) || decide (newStatus = StatusRescheduled)) &&
    decide (user.role = "supplier") && decide (user.id = appointment.supplierID)) ||
  (decide (appointment.status = StatusRescheduled) &&
    decide (newStatus = StatusPending) && decide (user.role = "supplier") &&
    decide (user.id = appointment.supplierID))

/-- C3: the status-change permission check grants every transition to admins,
and grants a transition to a non-admin exactly when the (role, fromStatus,
toStatus) triple is a row of the §4.3 matrix whose extra ownership condition
holds; every other triple is refused. -/
theorem hasStatusChangePermission_eq_matrix (user : User)
    (appointment : Appointment) (newStatus : AppointmentStatus) :
    hasStatusChangePermission user appointment newStatus =
      (decide (user.role = "admin") || specPermissionMatrix user appointment newStatus) := by
  unfold hasStatusChangePermission specPermissionMatrix
  by_cases hadm : user.role = "admin"
  · simp [hadm]
  · simp only [hadm, if_false, decide_eq_false hadm, Bool.false_or]
    by_cases hS1 : appointment.status = StatusPending
    · by_cases hRe : user.role = "employee" <;>
        by_cases hRs : user.role = "supplier" <;>
        by_cases hN1 : newStatus = StatusConfirmed <;>
        by_cases hN2 : newStatus = StatusCancelled <;>
          simp_all [StatusPending, StatusConfirmed, StatusCancelled,
            StatusCompleted, StatusRescheduled]
    · by_cases hS2 : appointment.status = StatusConfirmed
      · by_cases hRe : user.role = "employee" <;>
          by_cases hRs : user.role = "supplier" <;>
          by_cases hN3 : newStatus = StatusCompleted <;>
          by_cases hN2 : newStatus = StatusCancelled <;>
          by_cases hN5 : newStatus = StatusRescheduled <;>
            simp_all [StatusPending, StatusConfirmed, StatusCancelled,
              StatusCompleted, StatusRescheduled]
      · by_cases hS3 : appointment.status = StatusCancelled
        · simp_all [StatusPending, StatusConfirmed, StatusCancelled,
            StatusCompleted, StatusRescheduled]
        · by_cases hS4 : appointment.status = StatusCompleted
          · simp_all [StatusPending, StatusConfirmed, StatusCancelled,
              StatusCompleted, StatusRescheduled]
          · by_cases hS5 : appointment.status = StatusRescheduled <;>
              by_cases hRs : user.role = "supplier" <;>
              by_cases hN4 : newStatus = StatusPending <;>
                simp_all [StatusPending, StatusConfirmed, StatusCancelled,
                  StatusCompleted, StatusRescheduled]

/-! ## UpdateStatus pipeline

`appointmentRepository.UpdateStatus` stamps the status, the matching
timestamp and (for cancellations) the reason, then saves.  The handler
`AppointmentHandler.UpdateStatus` first runs `hasStatusChangePermission`
and rejects with 403 when it fails, then calls the service layer, which
delegates to the repository. -/


/-- The repository `UpdateStatus` body: set the status, then stamp
`ConfirmedAt`/`CancelledAt`/`CompletedAt` (and the cancellation reason)
according to the Go `switch`. `now` is the call's clock reading. -/
def applyUpdateStatus (now : Int) (a : Appointment)
    (status : AppointmentStatus) (reason : String) : Appointment :=
  if status = StatusConfirmed then
    { a with status := status, confirmedAt := some now }
  else if status = StatusCancelled then
    { a with status := status, cancelledAt := some now, cancellationReason := reason }
  else if status = StatusCompleted then
    { a with status := status, completedAt := some now }
  else { a with status := status }

/-- Modelled from the spec: the body of `appointmentService.UpdateStatus` is
absent from the source tree (`internal/service/appointment_service.go` is
truncated before it), so its contract is taken from §4.3/§4.5 of the spec:
a transition into `cancelled` requires a reason string; the call then
delegates to the repository `UpdateStatus`. -/
def serviceUpdateStatus (now : Int) (a : Appointment)
    (status : AppointmentStatus) (reason : String) :
    Except String Appointment :=
  if status = StatusCancelled ∧ reason = "" then
    .error "cancellation reason is required"
  else .ok (applyUpdateStatus now a status reason)

/-- The handler's `UpdateStatus` flow for an existing appointment `a` and
authenticated user: permission check, then the service call.  An `.error`
result means the stored appointment is left unchanged. -/
def updateStatusFlow (now : Int) (user : User) (a : Appointment)
    (status : AppointmentStatus) (reason : String) :
    Except String Appointment :=
  if ¬ hasStatusChangePermission user a status then .error "forbidden"
  else serviceUpdateStatus now a status reason

/-- C4 counterexample: an admin user may move a `cancelled` appointment back
to `pending`: the operation succeeds and the stored status changes, so the
claim that `UpdateStatus` fails from terminal states for every request is
false as stated. -/
theorem updateStatus_terminal_counterexample :
    (updateStatusFlow 0 { id := 99, role := "admin" }
        { candidateAppt with status := StatusCancelled }
        StatusPending "").toOption.map (fun x => x.status) = some StatusPending ∧
      StatusPending ≠ StatusCancelled := by
  constructor
  · rfl
  · decide

/-- C4 (amended): for every non-admin user, the `UpdateStatus` flow refuses
every requested new status when the appointment's current status is
`cancelled` or `completed` (the terminal states), leaving the stored
appointment unchanged; admins bypass the transition table. -/
theorem updateStatus_terminal_refused (now : Int) (user : User)
    (a : Appointment) (status : AppointmentStatus) (reason : String)
    (hrole : user.role ≠ "admin")
    (hterm : a.status = StatusCancelled ∨ a.status = StatusCompleted) :
    updateStatusFlow now user a status reason = .error "forbidden" := by
  unfold updateStatusFlow hasStatusChangePermission
  rcases hterm with h | h <;>
    simp [h, hrole, StatusPending, StatusConfirmed, StatusCancelled,
      StatusCompleted, StatusRescheduled]

/-- C4 witness: a concrete supplier cannot touch a completed appointment. -/
theorem updateStatus_terminal_refused_witness :
    updateStatusFlow 0 { id := 9, role := "supplier" }
        { candidateAppt with status := StatusCompleted } StatusPending "x" =
      .error "forbidden" :=
  updateStatus_terminal_refused 0 _ _ _ _ (by decide) (by decide)

/-- C5: every successful `UpdateStatus` call stamps the timestamp matching
the new status — `ConfirmedAt` for `confirmed`, `CancelledAt` for
`cancelled`, `CompletedAt` for `completed` — and a transition into
`cancelled` only succeeds with a non-empty reason, which is stored in
`CancellationReason`. -/
theorem updateStatus_stamps_timestamps (now : Int) (user : User)
    (a a2 : Appointment) (status : AppointmentStatus) (reason : String)
    (hok : updateStatusFlow now user a status reason = .ok a2) :
    (status = StatusConfirmed → a2.confirmedAt = some now) ∧
    (status = StatusCancelled →
      reason ≠ "" ∧ a2.cancelledAt = some now ∧ a2.cancellationReason = reason) ∧
    (status = StatusCompleted → a2.completedAt = some now) ∧
    a2.status = status := by
  unfold updateStatusFlow at hok
  split at hok
  · exact absurd hok (by simp)
  · unfold serviceUpdateStatus at hok
    split at hok
    · exact absurd hok (by simp)
    · rename_i hnc
      injection hok with hok
      subst hok
      refine ⟨?_, ?_, ?_, ?_⟩
      · intro h
        simp [applyUpdateStatus, h, StatusConfirmed]
      · intro h
        have hr : reason ≠ "" := fun hre => hnc ⟨h, hre⟩
        refine ⟨hr, ?_⟩
        simp [applyUpdateStatus, h, StatusConfirmed, StatusCancelled]
      · intro h
        simp [applyUpdateStatus, h, StatusConfirmed, StatusCancelled, StatusCompleted]
      · unfold applyUpdateStatus
        split_ifs <;> rfl

/-- C5 witness: an admin confirming a pending appointment stamps
`ConfirmedAt` on the returned appointment. -/
theorem updateStatus_stamps_timestamps_witness :
    (StatusConfirmed = StatusConfirmed →
      (applyUpdateStatus 5 candidateAppt StatusConfirmed "").confirmedAt = some 5) ∧
    (StatusConfirmed = StatusCancelled →
      "" ≠ "" ∧ (applyUpdateStatus 5 candidateAppt StatusConfirmed "").cancelledAt = some 5 ∧
        (applyUpdateStatus 5 candidateAppt StatusConfirmed "").cancellationReason = "") ∧
    (StatusConfirmed = StatusCompleted →
      (applyUpdateStatus 5 candidateAppt StatusConfirmed "").completedAt = some 5) ∧
    (applyUpdateStatus 5 candidateAppt StatusConfirmed "").status = StatusConfirmed :=
  updateStatus_stamps_timestamps 5 { id := 1, role := "admin" }
    candidateAppt _ StatusConfirmed "" (by rfl)

/-! ## Repository Create / Update (`appointmentRepository` in the
repository package): validation gate, conflict gate, then persistence. -/

/-- `appointmentRepository.Create`: validate, check conflicts, then insert
inside a transaction.  The returned list is the stored state after the call. -/
def repoCreate (db : List Appointment) (a : Appointment) :
    Except String (List Appointment) :=
  match a.Validate with
  | .error e => .error e
  | .ok _ =>
    if HasConflict db a then
      .error "appointment conflicts with an existing appointment"
    else .ok (db ++ [a])

/-- `appointmentRepository.Update`: validate, look up the existing row, check
conflicts only when the scheduled times changed, then save. -/
def repoUpdate (db : List Appointment) (a : Appointment) :
    Except String (List Appointment) :=
  match a.Validate with
  | .error e => .error e
  | .ok _ =>
    match db.find? (fun r => decide (r.id = a.id)) with
    | none => .error "appointment not found"
    | some existing =>
      if existing.scheduledStart = a.scheduledStart ∧
          existing.scheduledEnd = a.scheduledEnd then
        .ok (db.map (fun r => if r.id = a.id then a else r))
      else if HasConflict db a then
        .error "updated appointment conflicts with an existing appointment"
      else .ok (db.map (fun r => if r.id = a.id then a else r))

/-- Helper: a validation failure makes both `Create` and `Update` fail with
the same message, and nothing is persisted. -/
theorem validate_error_propagates (db : List Appointment) (a : Appointment)
    (e : String) (h : a.Validate = .error e) :
    repoCreate db a = .error e ∧ repoUpdate db a = .error e := by
  unfold repoCreate repoUpdate
  rw [h]
  exact ⟨rfl, rfl⟩

/-- C6 (amended): `Create` and `Update` fail (and persist nothing) whenever
`start ≥ end` or `end - start < 1 hour`; for appointments passing the
earlier required-field checks, `start > end` fails with the invalid-range
message, while `start = end` — like any other sub-hour range — falls
through to the invalid-duration message (the source's range check uses
`After`, which is strict). -/
theorem create_update_duration_validation (db : List Appointment)
    (a : Appointment) :
    ((a.scheduledEnd ≤ a.scheduledStart ∨
        a.scheduledEnd - a.scheduledStart < 60) →
      ∃ msg, a.Validate = .error msg ∧ repoCreate db a = .error msg ∧
        repoUpdate db a = .error msg) ∧
    (a.supplierID ≠ 0 → a.employeeID ≠ 0 → a.operationID ≠ 0 →
      a.productID ≠ 0 → a.scheduledStart ≠ goTimeZero →
      a.scheduledEnd ≠ goTimeZero → 0 < a.quantityToDeliver →
      (a.scheduledEnd < a.scheduledStart →
        a.Validate = .error "scheduled start time must be before scheduled end time") ∧
      (a.scheduledStart ≤ a.scheduledEnd →
        a.scheduledEnd - a.scheduledStart < 60 →
        a.Validate = .error "appointment must be at least 1 hour long")) := by
  constructor
  · intro hbad
    cases hv : a.Validate with
    | error e =>
      obtain ⟨hc, hu⟩ := validate_error_propagates db a e hv
      exact ⟨e, rfl, hc, hu⟩
    | ok u =>
      exfalso
      unfold Appointment.Validate at hv
      split_ifs at hv <;> first | exact Except.noConfusion hv | omega
  · intro hsup hempl hop hprod hstart hend hqty
    constructor
    · intro hlt
      simp [Appointment.Validate, hsup, hempl, hop, hprod, hstart, hend, hlt]
    · intro hle hdur
      have hnlt : ¬ (a.scheduledEnd < a.scheduledStart) := by omega
      have hnq : ¬ (a.quantityToDeliver ≤ 0) := by omega
      simp [Appointment.Validate, hsup, hempl, hop, hprod, hstart, hend,
        hnlt, hnq, hdur]

/-- An appointment whose interval `[1000, 1000)` is degenerate but whose
other fields are all valid. -/
def degenerateRangeAppt : Appointment :=
  { id := 4, supplierID := 9, employeeID := 7, operationID := 1, productID := 1,
    scheduledStart := 1000, scheduledEnd := 1000, status := StatusPending,
    notes := "", quantityToDeliver := 1, confirmedAt := none,
    cancelledAt := none, completedAt := none, cancellationReason := "" }

/-- C6 counterexample: with `start = end` (and all other fields valid) the
source fails with the invalid-duration message, not the invalid-range
message the claim assigns to `start >= end`. -/
theorem create_update_duration_validation_counterexample :
    degenerateRangeAppt.Validate = .error "appointment must be at least 1 hour long" ∧
      "appointment must be at least 1 hour long" ≠
        "scheduled start time must be before scheduled end time" := by
  exact ⟨rfl, by decide⟩

/-- An appointment with a 30-minute range and otherwise valid fields. -/
def shortRangeAppt : Appointment :=
  { id := 5, supplierID := 9, employeeID := 7, operationID := 1, productID := 1,
    scheduledStart := 1000, scheduledEnd := 1030, status := StatusPending,
    notes := "", quantityToDeliver := 1, confirmedAt := none,
    cancelledAt := none, completedAt := none, cancellationReason := "" }

/-- C6 witness: a concrete 30-minute appointment is refused by `Create` and
`Update` with the invalid-duration message. -/
theorem create_update_duration_validation_witness :
    shortRangeAppt.Validate = .error "appointment must be at least 1 hour long" :=
  ((create_update_duration_validation [] shortRangeAppt).2
    (by decide) (by decide) (by decide) (by decide) (by decide) (by decide)
    (by decide)).2 (by decide) (by decide)

/-! ## Recurrence expander (`internal/models/recurring_appointment.go`) -/

def RecurrenceDaily : String := "daily"
def RecurrenceWeekly : String := "weekly"
def RecurrenceMonthly : String := "monthly"
def RecurrenceBiweekly : String := "biweekly"

/-- `models.RecurringAppointment` (the fields `GenerateOccurrences` and the
persistence hooks read).  `WeekDays` entries are the Go `WeekDay` integers
(0 = Sunday .. 6 = Saturday); `StartTimeMinutes` is minutes from midnight;
`ExclusionDates` are instants whose calendar date is compared. -/
structure RecurringAppointment where
  SupplierID : Nat
  EmployeeID : Nat
  OperationID : Nat
  ProductID : Nat
  QuantityToDeliver : Int
  Notes : String
  Pattern : String
  StartDate : Int
  EndDate : Option Int
  MaxOccurrences : Option Int
  StartTimeMinutes : Int
  DurationMinutes : Int
  WeekDays : List Int
  MonthDay : Option Int
  ExclusionDates : List Int
  deriving Repr, DecidableEq

/-- Calendar-date equality (`Year() == ... && Month() == ... && Day() == ...`),
the comparison `GenerateOccurrences` runs against each exclusion date. -/
def sameCalendarDate (a b : Int) : Bool :=
  decide (goYear a = goYear b) && decide (goMonth a = goMonth b) &&
  decide (goDayOfMonth a = goDayOfMonth b)

/-- The pattern `switch` of `GenerateOccurrences`, deciding whether the day
of `cur` is included before exclusions are consulted.  For `biweekly`,
`weeksSinceStart` is the Go `int(currentDate.Sub(StartDate).Hours()/24/7)`
(truncated toward zero, hence `tdiv`/`tmod`). -/
def includeByPattern (ra : RecurringAppointment) (cur : Int) : Bool :=
  if ra.Pattern = RecurrenceDaily then true
  else if ra.Pattern = RecurrenceWeekly then
    ra.WeekDays.any (fun day => decide (day = goWeekday cur))
  else if ra.Pattern = RecurrenceBiweekly then
    (if ((cur - ra.StartDate).tdiv 10080).tmod 2 = 0 then
      ra.WeekDays.any (fun day => decide (day = goWeekday cur))
    else false)
  else if ra.Pattern = RecurrenceMonthly then
    (match ra.MonthDay with
     | some md => decide (goDayOfMonth cur = md)
     | none => false)
  else false

/-- The exclusion-list scan of `GenerateOccurrences`. -/
def isExcluded (ra : RecurringAppointment) (cur : Int) : Bool :=
  ra.ExclusionDates.any (fun ex => sameCalendarDate cur ex)

/-- The day-by-day generation loop of `GenerateOccurrences`: while
`currentDate.Before(endDate) && occurrenceCount < maxOccurrences`, emit the
day when the pattern includes it and no exclusion matches, then advance one
day (`AddDate(0,0,1)`, i.e. `+1440` minutes).  `fuel` is an upper bound on
the remaining loop iterations (the caller passes one more than the number of
days to the end bound, which the loop can never exceed). -/
def genLoop (ra : RecurringAppointment) (endD maxOcc : Int) :
    Nat → Int → Int → List Int
  | 0, _, _ => []
  | fuel + 1, cur, cnt =>
    if cur < endD ∧ cnt < maxOcc then
      if includeByPattern ra cur && !(isExcluded ra cur) then
        cur :: genLoop ra endD maxOcc fuel (cur + 1440) (cnt + 1)
      else genLoop ra endD maxOcc fuel (cur + 1440) cnt
    else []

/-- The end bound of the generation loop: `EndDate` when set, else ten
years past the clock reading (`time.Now().AddDate(10, 0, 0)`). -/
def genEndDate (ra : RecurringAppointment) (now : Int) : Int :=
  match ra.EndDate with
  | some e => e
  | none => goAddYears now 10

/-- The loop's first candidate instant: `StartDate`'s calendar date at the
`StartTimeMinutes` time of day (`startHour = StartTimeMinutes / 60`,
`startMinute = StartTimeMinutes % 60`, Go `int` division). -/
def genStartInstant (ra : RecurringAppointment) : Int :=
  goDateHM (goYear ra.StartDate) (goMonth ra.StartDate) (goDayOfMonth ra.StartDate)
    (ra.StartTimeMinutes.tdiv 60) (ra.StartTimeMinutes.tmod 60)

/-- The occurrence cap: `MaxOccurrences` when set, else the default 1000. -/
def genMaxOcc (ra : RecurringAppointment) : Int :=
  match ra.MaxOccurrences with
  | some m => m
  | none => 1000

/-- `RecurringAppointment.GenerateOccurrences`, with the clock reading
`now` (the source's `time.Now()`) passed explicitly. -/
def GenerateOccurrences (ra : RecurringAppointment) (now : Int) : List Int :=
  genLoop ra (genEndDate ra now) (genMaxOcc ra)
    ((genEndDate ra now - genStartInstant ra).toNat / 1440 + 1)
    (genStartInstant ra) 0

/-- C9 (amended): `GenerateOccurrences` is a pure function of the template
state and the invocation time; whenever the template's `EndDate` is set the
invocation time is irrelevant, so any two invocations agree.  (With
`EndDate` unset the end bound is ten years from `time.Now()`, so far-apart
invocation times can differ — see the counterexample.) -/
theorem generateOccurrences_pure_of_endDate (ra : RecurringAppointment)
    (e : Int) (now1 now2 : Int) (h : ra.EndDate = some e) :
    GenerateOccurrences ra now1 = GenerateOccurrences ra now2 := by
  unfold GenerateOccurrences genEndDate
  rw [h]

/-- A daily template with no `EndDate` and a single-occurrence cap, used to
show time-of-call dependence. -/
def dailyNoEndTemplate : RecurringAppointment :=
  { SupplierID := 1, EmployeeID := 1, OperationID := 1, ProductID := 1,
    QuantityToDeliver := 1, Notes := "", Pattern := RecurrenceDaily,
    StartDate := goDateHM 2025 6 1 0 0, EndDate := none,
    MaxOccurrences := some 1, StartTimeMinutes := 0, DurationMinutes := 60,
    WeekDays := [], MonthDay := none, ExclusionDates := [] }

/-- C9 counterexample: with `EndDate` unset, calling `GenerateOccurrences`
at 2000-01-01 yields no occurrences (the ten-year default bound ends before
`StartDate`), while calling it at 2015-06-02 yields one — the result is not
independent of when the invocation happens. -/
theorem generateOccurrences_pure_counterexample :
    GenerateOccurrences dailyNoEndTemplate (goDateHM 2000 1 1 0 0) ≠
      GenerateOccurrences dailyNoEndTemplate (goDateHM 2015 6 2 0 0) := by
  decide

/-- C9 witness: two invocations at different times agree on a template whose
`EndDate` is set. -/
theorem generateOccurrences_pure_of_endDate_witness :
    GenerateOccurrences
        { dailyNoEndTemplate with EndDate := some (goDateHM 2025 6 3 0 0) }
        (goDateHM 2000 1 1 0 0) =
      GenerateOccurrences
        { dailyNoEndTemplate with EndDate := some (goDateHM 2025 6 3 0 0) }
        (goDateHM 2015 6 2 0 0) :=
  generateOccurrences_pure_of_endDate _ (goDateHM 2025 6 3 0 0) _ _ (by rfl)

/-- Helper: the loop emits nothing once the occurrence cap is reached. -/
theorem genLoop_stop (ra : RecurringAppointment) (endD maxOcc : Int)
    (fuel : Nat) (cur cnt : Int) (h : maxOcc ≤ cnt) :
    genLoop ra endD maxOcc fuel cur cnt = [] := by
  cases fuel with
  | zero => rfl
  | succ f =>
    simp only [genLoop]
    rw [if_neg]
    rintro ⟨-, h2⟩
    omega

/-- Helper: one loop iteration that includes the current day. -/
theorem genLoop_step_incl (ra : RecurringAppointment) (endD maxOcc : Int)
    (fuel : Nat) (cur cnt : Int) (h1 : cur < endD) (h2 : cnt < maxOcc)
    (h3 : (includeByPattern ra cur && !(isExcluded ra cur)) = true) :
    genLoop ra endD maxOcc (fuel + 1) cur cnt =
      cur :: genLoop ra endD maxOcc fuel (cur + 1440) (cnt + 1) := by
  simp only [genLoop]
  rw [if_pos ⟨h1, h2⟩, if_pos h3]

/-- Helper: one loop iteration that skips the current day. -/
theorem genLoop_step_skip (ra : RecurringAppointment) (endD maxOcc : Int)
    (fuel : Nat) (cur cnt : Int) (h1 : cur < endD) (h2 : cnt < maxOcc)
    (h3 : (includeByPattern ra cur && !(isExcluded ra cur)) = false) :
    genLoop ra endD maxOcc (fuel + 1) cur cnt =
      genLoop ra endD maxOcc fuel (cur + 1440) cnt := by
  simp only [genLoop]
  rw [if_pos ⟨h1, h2⟩, if_neg (by simp [h3])]

/-- Helper: the weekday of a day-aligned instant plus a time-of-day offset. -/
theorem goWeekday_day_offset (D st : Int) (h0 : 0 ≤ st) (h1 : st < 1440) :
    goWeekday (D * 1440 + st) = (D + 4) % 7 := by
  unfold goWeekday
  rw [show (D * 1440 + st) / 1440 = D from by omega]

/-- The §8 example template: weekly on `{Monday, Wednesday}` starting
Sunday 2025-06-01, no end date, at most four occurrences, at time-of-day
`st` minutes. -/
def weeklyExampleTemplate (st : Int) : RecurringAppointment :=
  { SupplierID := 1, EmployeeID := 2, OperationID := 1, ProductID := 1,
    QuantityToDeliver := 1, Notes := "", Pattern := RecurrenceWeekly,
    StartDate := goDateHM 2025 6 1 0 0, EndDate := none,
    MaxOccurrences := some 4, StartTimeMinutes := st, DurationMinutes := 60,
    WeekDays := [1, 3], MonthDay := none, ExclusionDates := [] }

/-- Helper: on the example template the include-and-not-excluded test is
exactly "the weekday is Monday or Wednesday". -/
theorem weeklyExample_include_eval (st D : Int) (h0 : 0 ≤ st) (h1 : st < 1440) :
    (includeByPattern (weeklyExampleTemplate st) (D * 1440 + st) &&
        !(isExcluded (weeklyExampleTemplate st) (D * 1440 + st))) =
      (decide (1 = (D + 4) % 7) || decide (3 = (D + 4) % 7)) := by
  rw [show includeByPattern (weeklyExampleTemplate st) (D * 1440 + st) =
      [(1 : Int), 3].any (fun day => decide (day = goWeekday (D * 1440 + st)))
    from by simp [includeByPattern, weeklyExampleTemplate, RecurrenceDaily,
      RecurrenceWeekly]]
  rw [goWeekday_day_offset D st h0 h1]
  simp [isExcluded, weeklyExampleTemplate]

/-- Helper: one day of the weekly example's loop, phrased on the day number
`D` of the current instant. -/
theorem weeklyExample_step (st endD cur : Int) (fuel fuel1 : Nat) (D cnt : Int)
    (h0 : 0 ≤ st) (h1 : st < 1440) (hfuel : fuel = fuel1 + 1)
    (hform : cur = D * 1440 + st) (hcur : cur < endD) (hcnt : cnt < 4) :
    genLoop (weeklyExampleTemplate st) endD 4 fuel cur cnt =
      if 1 = (D + 4) % 7 ∨ 3 = (D + 4) % 7 then
        cur :: genLoop (weeklyExampleTemplate st) endD 4 fuel1 (cur + 1440) (cnt + 1)
      else genLoop (weeklyExampleTemplate st) endD 4 fuel1 (cur + 1440) cnt := by
  subst hfuel
  subst hform
  by_cases hw : 1 = (D + 4) % 7 ∨ 3 = (D + 4) % 7
  · rw [if_pos hw]
    apply genLoop_step_incl _ _ _ _ _ _ hcur hcnt
    rw [weeklyExample_include_eval st D h0 h1]
    rcases hw with h | h <;> simp [← h]
  · rw [if_neg hw]
    apply genLoop_step_skip _ _ _ _ _ _ hcur hcnt
    rw [weeklyExample_include_eval st D h0 h1]
    push_neg at hw
    simp [hw.1, hw.2]

/-- C7: for the weekly template on `{Monday, Wednesday}` starting Sunday
2025-06-01 with no end date and `MaxOccurrences = 4`, `GenerateOccurrences`
returns exactly the four start-datetimes on 2025-06-02, 2025-06-04,
2025-06-09 and 2025-06-11, in order, each at the `StartTimeMinutes`
time-of-day `st`.  The invocation time `now` may be anything that keeps the
default ten-year end bound past the last of those dates. -/
theorem generateOccurrences_weekly_example (st now : Int)
    (h0 : 0 ≤ st) (h1 : st < 1440)
    (hb : goDateHM 2025 6 12 0 0 ≤ goAddYears now 10) :
    GenerateOccurrences (weeklyExampleTemplate st) now =
      [goDateHM 2025 6 2 0 0 + st, goDateHM 2025 6 4 0 0 + st,
        goDateHM 2025 6 9 0 0 + st, goDateHM 2025 6 11 0 0 + st] := by
  have hb' : 29161440 ≤ goAddYears now 10 := by
    rw [show goDateHM 2025 6 12 0 0 = 29161440 from by decide] at hb
    exact hb
  have hcur0 : goDateHM 2025 6 1 (st.tdiv 60) (st.tmod 60) = 20240 * 1440 + st := by
    unfold goDateHM
    rw [show daysFromCivil 2025 6 1 = 20240 from by decide]
    have h := Int.tmod_add_tdiv st 60
    omega
  have hshow : GenerateOccurrences (weeklyExampleTemplate st) now =
      genLoop (weeklyExampleTemplate st) (goAddYears now 10) 4
        ((goAddYears now 10 -
          goDateHM (goYear (goDateHM 2025 6 1 0 0)) (goMonth (goDateHM 2025 6 1 0 0))
            (goDayOfMonth (goDateHM 2025 6 1 0 0)) (st.tdiv 60) (st.tmod 60)).toNat / 1440 + 1)
        (goDateHM (goYear (goDateHM 2025 6 1 0 0)) (goMonth (goDateHM 2025 6 1 0 0))
          (goDayOfMonth (goDateHM 2025 6 1 0 0)) (st.tdiv 60) (st.tmod 60)) 0 := rfl
  rw [hshow, show goYear (goDateHM 2025 6 1 0 0) = 2025 from by decide,
    show goMonth (goDateHM 2025 6 1 0 0) = 6 from by decide,
    show goDayOfMonth (goDateHM 2025 6 1 0 0) = 1 from by decide, hcur0]
  set endD := goAddYears now 10 with hendD
  have h11 : 11 ≤ (endD - (20240 * 1440 + st)).toNat / 1440 + 1 := by omega
  obtain ⟨k, hk⟩ := Nat.exists_eq_add_of_le h11
  rw [hk]
  rw [weeklyExample_step st endD _ _ (k + 10) 20240 _ h0 h1 (by omega) (by ring)
    (by omega) (by decide), if_neg (by decide)]
  rw [weeklyExample_step st endD _ _ (k + 9) 20241 _ h0 h1 (by omega) (by ring)
    (by omega) (by decide), if_pos (by decide)]
  rw [weeklyExample_step st endD _ _ (k + 8) 20242 _ h0 h1 (by omega) (by ring)
    (by omega) (by decide), if_neg (by decide)]
  rw [weeklyExample_step st endD _ _ (k + 7) 20243 _ h0 h1 (by omega) (by ring)
    (by omega) (by decide), if_pos (by decide)]
  rw [weeklyExample_step st endD _ _ (k + 6) 20244 _ h0 h1 (by omega) (by ring)
    (by omega) (by decide), if_neg (by decide)]
  rw [weeklyExample_step st endD _ _ (k + 5) 20245 _ h0 h1 (by omega) (by ring)
    (by omega) (by decide), if_neg (by decide)]
  rw [weeklyExample_step st endD _ _ (k + 4) 20246 _ h0 h1 (by omega) (by ring)
    (by omega) (by decide), if_neg (by decide)]
  rw [weeklyExample_step st endD _ _ (k + 3) 20247 _ h0 h1 (by omega) (by ring)
    (by omega) (by decide), if_neg (by decide)]
  rw [weeklyExample_step st endD _ _ (k + 2) 20248 _ h0 h1 (by omega) (by ring)
    (by omega) (by decide), if_pos (by decide)]
  rw [weeklyExample_step st endD _ _ (k + 1) 20249 _ h0 h1 (by omega) (by ring)
    (by omega) (by decide), if_neg (by decide)]
  rw [weeklyExample_step st endD _ _ k 20250 _ h0 h1 (by omega) (by ring)
    (by omega) (by decide), if_pos (by decide)]
  rw [genLoop_stop _ _ _ _ _ _ (by norm_num)]
  rw [show goDateHM 2025 6 2 0 0 = 29147040 from by decide,
    show goDateHM 2025 6 4 0 0 = 29149920 from by decide,
    show goDateHM 2025 6 9 0 0 = 29157120 from by decide,
    show goDateHM 2025 6 11 0 0 = 29160000 from by decide]
  norm_num
  omega

/-- C7 witness: the example at `StartTimeMinutes = 600` (10:00), invoked on
2025-01-01. -/
theorem generateOccurrences_weekly_example_witness :
    GenerateOccurrences (weeklyExampleTemplate 600) (goDateHM 2025 1 1 0 0) =
      [goDateHM 2025 6 2 0 0 + 600, goDateHM 2025 6 4 0 0 + 600,
        goDateHM 2025 6 9 0 0 + 600, goDateHM 2025 6 11 0 0 + 600] :=
  generateOccurrences_weekly_example 600 (goDateHM 2025 1 1 0 0)
    (by decide) (by decide) (by decide)

/-! ## C8: exclusions.  A proof-only uncapped variant of the loop relates the
capped run to a `filter`, which settles how adding one exclusion changes the
output. -/

/-- The generation loop with the occurrence cap removed (proof device). -/
def genLoopNC (ra : RecurringAppointment) (endD : Int) :
    Nat → Int → List Int
  | 0, _ => []
  | fuel + 1, cur =>
    if cur < endD then
      if includeByPattern ra cur && !(isExcluded ra cur) then
        cur :: genLoopNC ra endD fuel (cur + 1440)
      else genLoopNC ra endD fuel (cur + 1440)
    else []

/-- Helper: a capped run that ends strictly below the cap coincides with the
uncapped run. -/
theorem genLoop_eq_NC_of_uncapped (ra : RecurringAppointment)
    (endD maxOcc : Int) :
    ∀ (fuel : Nat) (cur cnt : Int),
      cnt + ((genLoop ra endD maxOcc fuel cur cnt).length : Int) < maxOcc →
      genLoop ra endD maxOcc fuel cur cnt = genLoopNC ra endD fuel cur := by
  intro fuel
  induction fuel with
  | zero => intro cur cnt h; rfl
  | succ f ih =>
    intro cur cnt h
    by_cases hcur : cur < endD
    · have hcnt : cnt < maxOcc := by
        have hlen : (0 : Int) ≤ ((genLoop ra endD maxOcc (f + 1) cur cnt).length : Int) := by
          positivity
        omega
      by_cases hinc : (includeByPattern ra cur && !(isExcluded ra cur)) = true
      · rw [genLoop_step_incl _ _ _ _ _ _ hcur hcnt hinc] at h ⊢
        rw [show genLoopNC ra endD (f + 1) cur = cur :: genLoopNC ra endD f (cur + 1440) from by
          simp only [genLoopNC]; rw [if_pos hcur, if_pos hinc]]
        simp only [List.length_cons] at h
        rw [ih (cur + 1440) (cnt + 1) (by push_cast at h ⊢; omega)]
      · have hinc' : (includeByPattern ra cur && !(isExcluded ra cur)) = false := by
          simpa using hinc
        rw [genLoop_step_skip _ _ _ _ _ _ hcur hcnt hinc'] at h ⊢
        rw [show genLoopNC ra endD (f + 1) cur = genLoopNC ra endD f (cur + 1440) from by
          simp only [genLoopNC]; rw [if_pos hcur, if_neg (by simp [hinc'])]]
        exact ih (cur + 1440) cnt h
    · rw [show genLoop ra endD maxOcc (f + 1) cur cnt = [] from by
        simp only [genLoop]; rw [if_neg (fun hc => hcur hc.1)]]
      rw [show genLoopNC ra endD (f + 1) cur = [] from by
        simp only [genLoopNC]; rw [if_neg hcur]]

/-- Helper: conversely, when the uncapped run is strictly shorter than the
remaining cap budget, the capped run equals it. -/
theorem genLoop_eq_NC_of_short (ra : RecurringAppointment)
    (endD maxOcc : Int) :
    ∀ (fuel : Nat) (cur cnt : Int),
      cnt + ((genLoopNC ra endD fuel cur).length : Int) < maxOcc →
      genLoop ra endD maxOcc fuel cur cnt = genLoopNC ra endD fuel cur := by
  intro fuel
  induction fuel with
  | zero => intro cur cnt h; rfl
  | succ f ih =>
    intro cur cnt h
    by_cases hcur : cur < endD
    · have hlen : (0 : Int) ≤ ((genLoopNC ra endD (f + 1) cur).length : Int) := by
        positivity
      have hcnt : cnt < maxOcc := by omega
      by_cases hinc : (includeByPattern ra cur && !(isExcluded ra cur)) = true
      · have hNC : genLoopNC ra endD (f + 1) cur = cur :: genLoopNC ra endD f (cur + 1440) := by
          simp only [genLoopNC]; rw [if_pos hcur, if_pos hinc]
        rw [genLoop_step_incl _ _ _ _ _ _ hcur hcnt hinc, hNC]
        rw [hNC, List.length_cons] at h
        rw [ih (cur + 1440) (cnt + 1) (by push_cast at h ⊢; omega)]
      · have hinc' : (includeByPattern ra cur && !(isExcluded ra cur)) = false := by
          simpa using hinc
        have hNC : genLoopNC ra endD (f + 1) cur = genLoopNC ra endD f (cur + 1440) := by
          simp only [genLoopNC]; rw [if_pos hcur, if_neg (by simp [hinc'])]
        rw [genLoop_step_skip _ _ _ _ _ _ hcur hcnt hinc', hNC]
        rw [hNC] at h
        exact ih (cur + 1440) cnt h
    · rw [show genLoop ra endD maxOcc (f + 1) cur cnt = [] from by
        simp only [genLoop]; rw [if_neg (fun hc => hcur hc.1)]]
      rw [show genLoopNC ra endD (f + 1) cur = [] from by
        simp only [genLoopNC]; rw [if_neg hcur]]

/-- Helper: appending one exclusion date filters the uncapped run by "not on
that calendar date". -/
theorem genLoopNC_append_exclusion (ra : RecurringAppointment)
    (d endD : Int) :
    ∀ (fuel : Nat) (cur : Int),
      genLoopNC { ra with ExclusionDates := ra.ExclusionDates ++ [d] } endD fuel cur =
        (genLoopNC ra endD fuel cur).filter (fun t => !(sameCalendarDate t d)) := by
  intro fuel
  induction fuel with
  | zero => intro cur; rfl
  | succ f ih =>
    intro cur
    by_cases hcur : cur < endD
    · have hpat : includeByPattern { ra with ExclusionDates := ra.ExclusionDates ++ [d] } cur =
          includeByPattern ra cur := by
        simp [includeByPattern]
      have hexc : isExcluded { ra with ExclusionDates := ra.ExclusionDates ++ [d] } cur =
          (isExcluded ra cur || sameCalendarDate cur d) := by
        simp [isExcluded, List.any_append]
      cases hp : includeByPattern ra cur with
      | false =>
        have h1 : (includeByPattern ra cur && !(isExcluded ra cur)) = false := by
          simp [hp]
        have h2 : (includeByPattern { ra with ExclusionDates := ra.ExclusionDates ++ [d] } cur &&
            !(isExcluded { ra with ExclusionDates := ra.ExclusionDates ++ [d] } cur)) = false := by
          simp [hpat, hp]
        rw [show genLoopNC { ra with ExclusionDates := ra.ExclusionDates ++ [d] } endD (f + 1) cur =
            genLoopNC { ra with ExclusionDates := ra.ExclusionDates ++ [d] } endD f (cur + 1440) from by
          simp only [genLoopNC]; rw [if_pos hcur, if_neg (by simp [h2])]]
        rw [show genLoopNC ra endD (f + 1) cur = genLoopNC ra endD f (cur + 1440) from by
          simp only [genLoopNC]; rw [if_pos hcur, if_neg (by simp [h1])]]
        exact ih (cur + 1440)
      | true =>
        cases he : isExcluded ra cur with
        | true =>
          have h1 : (includeByPattern ra cur && !(isExcluded ra cur)) = false := by
            simp [hp, he]
          have h2 : (includeByPattern { ra with ExclusionDates := ra.ExclusionDates ++ [d] } cur &&
              !(isExcluded { ra with ExclusionDates := ra.ExclusionDates ++ [d] } cur)) = false := by
            simp [hpat, hexc, hp, he]
          rw [show genLoopNC { ra with ExclusionDates := ra.ExclusionDates ++ [d] } endD (f + 1) cur =
              genLoopNC { ra with ExclusionDates := ra.ExclusionDates ++ [d] } endD f (cur + 1440) from by
            simp only [genLoopNC]; rw [if_pos hcur, if_neg (by simp [h2])]]
          rw [show genLoopNC ra endD (f + 1) cur = genLoopNC ra endD f (cur + 1440) from by
            simp only [genLoopNC]; rw [if_pos hcur, if_neg (by simp [h1])]]
          exact ih (cur + 1440)
        | false =>
          have h1 : (includeByPattern ra cur && !(isExcluded ra cur)) = true := by
            simp [hp, he]
          rw [show genLoopNC ra endD (f + 1) cur = cur :: genLoopNC ra endD f (cur + 1440) from by
            simp only [genLoopNC]; rw [if_pos hcur, if_pos h1]]
          cases hd : sameCalendarDate cur d with
          | true =>
            have h2 : (includeByPattern { ra with ExclusionDates := ra.ExclusionDates ++ [d] } cur &&
                !(isExcluded { ra with ExclusionDates := ra.ExclusionDates ++ [d] } cur)) = false := by
              simp [hpat, hexc, hp, he, hd]
            rw [show genLoopNC { ra with ExclusionDates := ra.ExclusionDates ++ [d] } endD (f + 1) cur =
                genLoopNC { ra with ExclusionDates := ra.ExclusionDates ++ [d] } endD f (cur + 1440) from by
              simp only [genLoopNC]; rw [if_pos hcur, if_neg (by simp [h2])]]
            rw [List.filter_cons_of_neg (by simp [hd])]
            exact ih (cur + 1440)
          | false =>
            have h2 : (includeByPattern { ra with ExclusionDates := ra.ExclusionDates ++ [d] } cur &&
                !(isExcluded { ra with ExclusionDates := ra.ExclusionDates ++ [d] } cur)) = true := by
              simp [hpat, hexc, hp, he, hd]
            rw [show genLoopNC { ra with ExclusionDates := ra.ExclusionDates ++ [d] } endD (f + 1) cur =
                cur :: genLoopNC { ra with ExclusionDates := ra.ExclusionDates ++ [d] } endD f (cur + 1440) from by
              simp only [genLoopNC]; rw [if_pos hcur, if_pos h2]]
            rw [List.filter_cons_of_pos (by simp [hd])]
            rw [ih (cur + 1440)]
    · rw [show genLoopNC { ra with ExclusionDates := ra.ExclusionDates ++ [d] } endD (f + 1) cur = [] from by
        simp only [genLoopNC]; rw [if_neg hcur]]
      rw [show genLoopNC ra endD (f + 1) cur = [] from by
        simp only [genLoopNC]; rw [if_neg hcur]]
      rfl

/-- C8 (amended): when the unexcluded generation ends strictly below the
occurrence cap, adding an exclusion date whose calendar date matches exactly
one generated occurrence yields the same sequence minus exactly that
occurrence.  (When the cap is the binding constraint, removing an occurrence
frees budget and the loop may append a further occurrence at the tail — see
the counterexample.) -/
theorem generateOccurrences_exclusion_removes_one (ra : RecurringAppointment)
    (now d t : Int) (l1 l2 : List Int)
    (hcap : ((GenerateOccurrences ra now).length : Int) < genMaxOcc ra)
    (hsplit : GenerateOccurrences ra now = l1 ++ t :: l2)
    (ht : sameCalendarDate t d = true)
    (hothers : ∀ u ∈ l1 ++ l2, sameCalendarDate u d = false) :
    GenerateOccurrences { ra with ExclusionDates := ra.ExclusionDates ++ [d] } now =
      l1 ++ l2 := by
  have hend : genEndDate { ra with ExclusionDates := ra.ExclusionDates ++ [d] } now =
      genEndDate ra now := rfl
  have hstart : genStartInstant { ra with ExclusionDates := ra.ExclusionDates ++ [d] } =
      genStartInstant ra := rfl
  have hmax : genMaxOcc { ra with ExclusionDates := ra.ExclusionDates ++ [d] } =
      genMaxOcc ra := rfl
  unfold GenerateOccurrences at hcap hsplit ⊢
  rw [hend, hstart, hmax]
  have h1 : genLoop ra (genEndDate ra now) (genMaxOcc ra)
      ((genEndDate ra now - genStartInstant ra).toNat / 1440 + 1) (genStartInstant ra) 0 =
      genLoopNC ra (genEndDate ra now)
        ((genEndDate ra now - genStartInstant ra).toNat / 1440 + 1) (genStartInstant ra) :=
    genLoop_eq_NC_of_uncapped ra _ _ _ _ 0 (by omega)
  have h2 := genLoopNC_append_exclusion ra d (genEndDate ra now)
    ((genEndDate ra now - genStartInstant ra).toNat / 1440 + 1) (genStartInstant ra)
  have hfilter : (genLoopNC ra (genEndDate ra now)
      ((genEndDate ra now - genStartInstant ra).toNat / 1440 + 1)
      (genStartInstant ra)).filter (fun u => !(sameCalendarDate u d)) = l1 ++ l2 := by
    rw [← h1, hsplit, List.filter_append, List.filter_cons_of_neg (by simp [ht])]
    rw [List.filter_eq_self.2 (fun u hu => by
        simp [hothers u (List.mem_append_left l2 hu)]),
      List.filter_eq_self.2 (fun u hu => by
        simp [hothers u (List.mem_append_right l1 hu)])]
  have hlen2 : (0 : Int) + ((genLoopNC { ra with ExclusionDates := ra.ExclusionDates ++ [d] }
      (genEndDate ra now) ((genEndDate ra now - genStartInstant ra).toNat / 1440 + 1)
      (genStartInstant ra)).length : Int) < genMaxOcc ra := by
    rw [h2, hfilter]
    rw [hsplit] at hcap
    simp only [List.length_append, List.length_cons] at hcap ⊢
    push_cast at hcap ⊢
    omega
  rw [genLoop_eq_NC_of_short _ _ _ _ _ 0 hlen2, h2, hfilter]

/-- The weekly example template with 2025-06-02 excluded. -/
def excludedWeeklyTemplate : RecurringAppointment :=
  { weeklyExampleTemplate 0 with ExclusionDates := [goDateHM 2025 6 2 0 0] }

/-- C8 counterexample: on the weekly `MaxOccurrences = 4` example (invoked
2015-06-20, so the ten-year bound is 2025-06-20), excluding 2025-06-02 —
the calendar date of exactly the first of the four occurrences — does not
return the remaining three: the freed cap budget lets the loop append
2025-06-16 at the tail. -/
theorem generateOccurrences_exclusion_counterexample :
    GenerateOccurrences (weeklyExampleTemplate 0) (goDateHM 2015 6 20 0 0) =
      [goDateHM 2025 6 2 0 0, goDateHM 2025 6 4 0 0,
        goDateHM 2025 6 9 0 0, goDateHM 2025 6 11 0 0] ∧
    sameCalendarDate (goDateHM 2025 6 2 0 0) (goDateHM 2025 6 2 0 0) = true ∧
    (∀ u ∈ [goDateHM 2025 6 4 0 0, goDateHM 2025 6 9 0 0, goDateHM 2025 6 11 0 0],
      sameCalendarDate u (goDateHM 2025 6 2 0 0) = false) ∧
    GenerateOccurrences excludedWeeklyTemplate (goDateHM 2015 6 20 0 0) ≠
      [goDateHM 2025 6 4 0 0, goDateHM 2025 6 9 0 0, goDateHM 2025 6 11 0 0] := by
  decide

/-- A daily template bounded by `EndDate` (five occurrences, cap unset). -/
def dailyBoundedTemplate : RecurringAppointment :=
  { SupplierID := 1, EmployeeID := 2, OperationID := 1, ProductID := 1,
    QuantityToDeliver := 1, Notes := "", Pattern := RecurrenceDaily,
    StartDate := goDateHM 2025 6 1 0 0, EndDate := some (goDateHM 2025 6 6 0 0),
    MaxOccurrences := none, StartTimeMinutes := 0, DurationMinutes := 60,
    WeekDays := [], MonthDay := none, ExclusionDates := [] }

/-- C8 witness: on the five-day daily template, excluding 2025-06-03 removes
exactly that occurrence. -/
theorem generateOccurrences_exclusion_removes_one_witness :
    GenerateOccurrences
        { dailyBoundedTemplate with
          ExclusionDates := dailyBoundedTemplate.ExclusionDates ++ [goDateHM 2025 6 3 0 0] } 0 =
      [goDateHM 2025 6 1 0 0, goDateHM 2025 6 2 0 0] ++
        [goDateHM 2025 6 4 0 0, goDateHM 2025 6 5 0 0] :=
  generateOccurrences_exclusion_removes_one dailyBoundedTemplate 0
    (goDateHM 2025 6 3 0 0) (goDateHM 2025 6 3 0 0)
    [goDateHM 2025 6 1 0 0, goDateHM 2025 6 2 0 0]
    [goDateHM 2025 6 4 0 0, goDateHM 2025 6 5 0 0]
    (by decide) (by decide) (by decide) (by decide)

/-! ## Weekday persistence encoding
(`RecurringAppointment.BeforeSave` / `AfterFind`) -/

/-- The character `rune('0' + int(day))` that `BeforeSave` writes for one
weekday entry. -/
def weekDayChar (day : Int) : Char := Char.ofNat (48 + day).toNat

/-- `BeforeSave`'s weekday encoding as a character list: the first entry's
digit, then a comma before each later entry's digit (the loop writes a comma
whenever `i > 0`). -/
def weekDaysChars : List Int → List Char
  | [] => []
  | day :: rest => weekDayChar day :: (rest.map (fun e => [',', weekDayChar e])).flatten

/-- `BeforeSave`'s `WeekDaysString` for a weekday list (starting from the
zero value, which the hook leaves untouched for an empty list). -/
def encodeWeekDaysString (l : List Int) : String := ⟨weekDaysChars l⟩

/-- `AfterFind`'s manual parse of the stored string, starting from an empty
in-memory weekday list: every non-comma character `c` appends
`WeekDay(int(c - '0'))`. -/
def decodeWeekDaysChars : List Char → List Int
  | [] => []
  | c :: rest =>
    if c ≠ ',' then ((c.toNat : Int) - 48) :: decodeWeekDaysChars rest
    else decodeWeekDaysChars rest

/-- `AfterFind` on a stored `WeekDaysString`. -/
def decodeWeekDaysString (s : String) : List Int := decodeWeekDaysChars s.data

/-- Helper: a digit character written for a weekday in `0..6` is not a comma
and decodes back to the weekday. -/
theorem weekDayChar_spec (d : Int) (h0 : 0 ≤ d) (h1 : d ≤ 6) :
    weekDayChar d ≠ ',' ∧ ((weekDayChar d).toNat : Int) - 48 = d := by
  interval_cases d <;> exact ⟨by decide, by decide⟩

/-- Helper: the decoder skips a comma. -/
theorem decode_comma (cs : List Char) :
    decodeWeekDaysChars (',' :: cs) = decodeWeekDaysChars cs := by
  simp [decodeWeekDaysChars]

/-- Helper: the decoder turns a non-comma character into its digit value. -/
theorem decode_digit (c : Char) (hc : c ≠ ',') (cs : List Char) :
    decodeWeekDaysChars (c :: cs) =
      ((c.toNat : Int) - 48) :: decodeWeekDaysChars cs := by
  simp [decodeWeekDaysChars, hc]

/-- Helper: decoding the comma-prefixed tail entries. -/
theorem decode_tail (rest : List Int) (h : ∀ day ∈ rest, 0 ≤ day ∧ day ≤ 6) :
    decodeWeekDaysChars ((rest.map (fun e => [',', weekDayChar e])).flatten) = rest := by
  induction rest with
  | nil => rfl
  | cons e es ih =>
    have he := h e (List.mem_cons_self e es)
    obtain ⟨hne, hval⟩ := weekDayChar_spec e he.1 he.2
    simp only [List.map_cons, List.flatten_cons, List.cons_append, List.nil_append]
    rw [decode_comma, decode_digit _ hne, hval,
      ih (fun day hd => h day (List.mem_cons_of_mem e hd))]

/-- C10: for every weekday list whose entries are all in `0..6`, encoding it
as `BeforeSave` does and decoding the string back as `AfterFind` does
(starting from an empty in-memory list) returns exactly the original list in
the original order. -/
theorem weekDays_encode_decode_roundtrip (l : List Int)
    (h : ∀ day ∈ l, 0 ≤ day ∧ day ≤ 6) :
    decodeWeekDaysString (encodeWeekDaysString l) = l := by
  show decodeWeekDaysChars (weekDaysChars l) = l
  cases l with
  | nil => rfl
  | cons d rest =>
    have hd := h d (List.mem_cons_self d rest)
    obtain ⟨hne, hval⟩ := weekDayChar_spec d hd.1 hd.2
    simp only [weekDaysChars]
    rw [decode_digit _ hne, hval,
      decode_tail rest (fun day hdm => h day (List.mem_cons_of_mem d hdm))]

/-- C10 witness: the roundtrip at the concrete weekday list `[1, 3, 5]`. -/
theorem weekDays_encode_decode_roundtrip_witness :
    decodeWeekDaysString (encodeWeekDaysString [1, 3, 5]) = [1, 3, 5] :=
  weekDays_encode_decode_roundtrip [1, 3, 5] (by decide)
